import Mathlib

/-!
Shallow embedding of `src/financial_data_processor.py`, a linear PySpark/Delta
ETL script: read a CSV of transactions, drop rows with null critical fields,
cast columns, fill null currency, deduplicate on transaction_id, write the
result in overwrite mode, optionally verify by read-back, stop the session.

The relational stages (lines 43-56) are embedded as pure functions on lists of
records; the script's control flow (try/except structure, session stop, exit)
is embedded as a function of an oracle describing the outcomes of the external
effects (read, engine evaluation, write, verification).
-/

namespace FinancialDataProcessor

/-- A calendar date as produced by the engine's cast to date type. -/
structure Date where
  year : Nat
  month : Nat
  day : Nat
deriving DecidableEq

/-- A raw CSV row as ingested (line 28-31): each field is a string, `none`
standing for a null (empty) CSV field. The columns are the Transaction Record
fields; the casts of lines 47-49 have not happened yet. -/
structure RawRecord where
  transaction_id : Option String
  amount : Option String
  date : Option String
  currency : Option String
deriving DecidableEq

/-- A transformed row after the casts of lines 47-49: `amount` as a numeric
(rational, standing for the engine's double), `date` as a calendar date,
`transaction_id` as an integer; each `none` when the source value was null or
failed its cast. -/
structure TxRecord where
  transaction_id : Option Int
  amount : Option Rat
  date : Option Date
  currency : Option String
deriving DecidableEq

/-- Numeric value of a digit list, most significant first. -/
def digitsVal (cs : List Char) : Nat :=
  cs.foldl (fun a c => a * 10 + (c.toNat - 48)) 0

/-- A nonempty list of decimal digits. -/
def allDigits (cs : List Char) : Bool :=
  !cs.isEmpty && cs.all Char.isDigit

/-- Strip leading and trailing blanks, as the engine's string casts do. -/
def trimChars (cs : List Char) : List Char :=
  ((cs.dropWhile (fun c => c = ' ')).reverse.dropWhile (fun c => c = ' ')).reverse

/-- Model of the engine's string-to-int cast used by
`col("transaction_id").cast("int")` (line 49): an optional sign followed by
digits, fitting in 32 bits; anything else casts to null. -/
def parseInt (s : String) : Option Int :=
  match trimChars s.data with
  | '-' :: cs =>
      if allDigits cs ∧ digitsVal cs ≤ 2147483648 then some (-(digitsVal cs : Int)) else none
  | '+' :: cs =>
      if allDigits cs ∧ digitsVal cs ≤ 2147483647 then some ((digitsVal cs : Int)) else none
  | cs =>
      if allDigits cs ∧ digitsVal cs ≤ 2147483647 then some ((digitsVal cs : Int)) else none

/-- An unsigned decimal numeral with an optional fractional part. -/
def parseUnsignedRat (cs : List Char) : Option Rat :=
  match cs.splitOn '.' with
  | [whole] => if allDigits whole then some ((digitsVal whole : Rat)) else none
  | [whole, frac] =>
      if allDigits whole ∧ allDigits frac then
        some ((digitsVal whole : Rat) + (digitsVal frac : Rat) / ((10 : Rat) ^ frac.length))
      else none
  | _ => none

/-- Model of the engine's string-to-double cast used by
`col("amount").cast("double")` (line 47): an optional sign followed by a
decimal numeral; anything else casts to null. -/
def parseDouble (s : String) : Option Rat :=
  match trimChars s.data with
  | '-' :: cs => (parseUnsignedRat cs).map (fun q => -q)
  | '+' :: cs => parseUnsignedRat cs
  | cs => parseUnsignedRat cs

/-- Model of the engine's string-to-date cast used by
`col("date").cast("date")` (line 48): a yyyy-MM-dd numeral triple with a
plausible month and day; anything else casts to null. -/
def parseDate (s : String) : Option Date :=
  match (trimChars s.data).splitOn '-' with
  | [y, m, d] =>
      if allDigits y ∧ allDigits m ∧ allDigits d ∧ y.length = 4 ∧ m.length ≤ 2 ∧
          d.length ≤ 2 ∧ 1 ≤ digitsVal m ∧ digitsVal m ≤ 12 ∧ 1 ≤ digitsVal d ∧
          digitsVal d ≤ 31 then
        some ⟨digitsVal y, digitsVal m, digitsVal d⟩
      else none
  | _ => none

/-- Line 43: `df.dropna(subset=['transaction_id', 'amount'])` — keep the rows
whose raw transaction_id and amount are both non-null. -/
def cleaned_df (df : List RawRecord) : List RawRecord :=
  df.filter (fun r => r.transaction_id.isSome && r.amount.isSome)

/-- Lines 47-49: the three `withColumn(... .cast(...))` steps — cast amount to
double, date to date and transaction_id to int, null on cast failure; currency
is untouched. -/
def castRecord (r : RawRecord) : TxRecord where
  transaction_id := r.transaction_id.bind parseInt
  amount := r.amount.bind parseDouble
  date := r.date.bind parseDate
  currency := r.currency

/-- Line 52: `fillna({"currency": "UNKNOWN"})` — a null currency becomes the
literal string "UNKNOWN"; every other column is left as it is. -/
def fillCurrency (r : TxRecord) : TxRecord where
  transaction_id := r.transaction_id
  amount := r.amount
  date := r.date
  currency := some (r.currency.getD "UNKNOWN")

/-- The table after the casts of lines 47-49. -/
def transformed_df (df : List RawRecord) : List TxRecord :=
  (cleaned_df df).map castRecord

/-- The table after the currency fill of line 52 (the script rebinds the name
`transformed_df` to it). -/
def filled_df (df : List RawRecord) : List TxRecord :=
  (transformed_df df).map fillCurrency

/-- Core of line 56's `dropDuplicates(['transaction_id'])`: walk the table in
processing order keeping a record only when its transaction_id key (null being
one key like any other) has not been seen yet. -/
def dedupFrom (seen : List (Option Int)) : List TxRecord → List TxRecord
  | [] => []
  | r :: rs =>
      if r.transaction_id ∈ seen then dedupFrom seen rs
      else r :: dedupFrom (r.transaction_id :: seen) rs

/-- Line 56: `dropDuplicates(['transaction_id'])` — keep the first occurrence
of each transaction_id key. -/
def dropDuplicates (rs : List TxRecord) : List TxRecord :=
  dedupFrom [] rs

/-- Line 56: `final_df`, the output table of the whole transformation. -/
def final_df (df : List RawRecord) : List TxRecord :=
  dropDuplicates (filled_df df)

/-- How the run ends: an early `exit()` from the ingestion handler (line 38),
an uncaught exception from the unguarded transformation section (lines 41-60),
or the normal fall-through to the end of the script. -/
inductive ExitPath
  | earlyExit
  | crashed
  | normal
deriving DecidableEq

/-- Oracle for the externally decided outcomes of one run: what
`spark.read.csv` returns (line 28), whether evaluating the transformation and
its `show` actions raises (lines 41-60, no try/except around them), and
whether the Delta write (line 67) and the verification read (line 78)
succeed. -/
structure Effects where
  readResult : Except String (List RawRecord)
  evalRaises : Bool
  writeSucceeds : Bool
  verifySucceeds : Bool

/-- Observable outcome of one run of the script: which stages ran, how often
`spark.stop()` was executed, how the process ended, the output location's
current version after the run, and the error messages printed. -/
structure RunOutcome where
  transformExecuted : Bool
  writeAttempted : Bool
  verifyAttempted : Bool
  sessionStops : Nat
  exitPath : ExitPath
  store : Option (List TxRecord)
  reportedErrors : List String
deriving DecidableEq

/-- The script's control flow (lines 24-88), threaded over the state of the
output location (`store0`, the current version at `delta_output_path` before
the run). A read failure is caught: the error is printed, the session stopped
and the process exited (lines 35-38). The transformation section has no
handler, so an engine failure there propagates and reaches no later line. The
write (lines 64-73) and verification (lines 77-82) failures are each caught
and printed; the write in overwrite mode replaces the store with exactly the
transformed table. The script always ends with one `spark.stop()` on the
paths that reach line 87. -/
def runPipeline (eff : Effects) (store0 : Option (List TxRecord)) : RunOutcome :=
  match eff.readResult with
  | Except.error e =>
      { transformExecuted := false
        writeAttempted := false
        verifyAttempted := false
        sessionStops := 1
        exitPath := ExitPath.earlyExit
        store := store0
        reportedErrors := ["Error reading CSV: " ++ e] }
  | Except.ok df =>
      if eff.evalRaises then
        { transformExecuted := true
          writeAttempted := false
          verifyAttempted := false
          sessionStops := 0
          exitPath := ExitPath.crashed
          store := store0
          reportedErrors := [] }
      else
        { transformExecuted := true
          writeAttempted := true
          verifyAttempted := true
          sessionStops := 1
          exitPath := ExitPath.normal
          store := if eff.writeSucceeds then some (final_df df) else store0
          reportedErrors :=
            (if eff.writeSucceeds then [] else ["Error writing to Delta Lake"]) ++
              (if eff.verifySucceeds then [] else
                ["Error reading from Delta Lake for verification"]) }

/-! Structural lemmas about the deduplication pass. -/

theorem mem_of_mem_dedupFrom {r : TxRecord} :
    ∀ (rs : List TxRecord) (seen : List (Option Int)), r ∈ dedupFrom seen rs → r ∈ rs := by
  intro rs
  induction rs with
  | nil => intro seen h; simp [dedupFrom] at h
  | cons t ts ih =>
      intro seen h
      rw [dedupFrom] at h
      by_cases hs : t.transaction_id ∈ seen
      · simp only [if_pos hs] at h
        exact List.mem_cons_of_mem _ (ih _ h)
      · simp only [if_neg hs] at h
        rcases List.mem_cons.mp h with h | h
        · exact h ▸ List.mem_cons_self _ _
        · exact List.mem_cons_of_mem _ (ih _ h)

theorem key_notin_seen_of_mem_dedupFrom {r : TxRecord} :
    ∀ (rs : List TxRecord) (seen : List (Option Int)),
      r ∈ dedupFrom seen rs → r.transaction_id ∉ seen := by
  intro rs
  induction rs with
  | nil => intro seen h; simp [dedupFrom] at h
  | cons t ts ih =>
      intro seen h
      rw [dedupFrom] at h
      by_cases hs : t.transaction_id ∈ seen
      · simp only [if_pos hs] at h
        exact ih _ h
      · simp only [if_neg hs] at h
        rcases List.mem_cons.mp h with h | h
        · exact h ▸ hs
        · intro hin
          exact ih _ h (List.mem_cons_of_mem _ hin)

theorem pairwise_keys_dedupFrom :
    ∀ (rs : List TxRecord) (seen : List (Option Int)),
      (dedupFrom seen rs).Pairwise (fun a b => a.transaction_id ≠ b.transaction_id) := by
  intro rs
  induction rs with
  | nil => intro seen; simp [dedupFrom]
  | cons t ts ih =>
      intro seen
      rw [dedupFrom]
      by_cases hs : t.transaction_id ∈ seen
      · simpa [if_pos hs] using ih seen
      · simp only [if_neg hs]
        refine List.pairwise_cons.mpr ⟨?_, ih _⟩
        intro b hb heq
        exact key_notin_seen_of_mem_dedupFrom _ _ hb (heq ▸ List.mem_cons_self _ _)

theorem find?_of_mem_dedupFrom {r : TxRecord} :
    ∀ (rs : List TxRecord) (seen : List (Option Int)), r ∈ dedupFrom seen rs →
      rs.find? (fun t => t.transaction_id == r.transaction_id) = some r := by
  intro rs
  induction rs with
  | nil => intro seen h; simp [dedupFrom] at h
  | cons t ts ih =>
      intro seen h
      rw [dedupFrom] at h
      by_cases hs : t.transaction_id ∈ seen
      · simp only [if_pos hs] at h
        have hns := key_notin_seen_of_mem_dedupFrom _ _ h
        have hne : (t.transaction_id == r.transaction_id) = false := by
          refine beq_eq_false_iff_ne.mpr ?_
          intro heq
          exact hns (heq ▸ hs)
        rw [List.find?_cons_of_neg _ (by simp [hne])]
        exact ih _ h
      · simp only [if_neg hs] at h
        rcases List.mem_cons.mp h with h | h
        · subst h
          exact List.find?_cons_of_pos _ (beq_self_eq_true _)
        · have hns := key_notin_seen_of_mem_dedupFrom _ _ h
          have hne : (t.transaction_id == r.transaction_id) = false := by
            refine beq_eq_false_iff_ne.mpr ?_
            intro heq
            exact hns (heq ▸ List.mem_cons_self _ _)
          rw [List.find?_cons_of_neg _ (by simp [hne])]
          exact ih _ h

theorem key_covered_dedupFrom :
    ∀ (rs : List TxRecord) (seen : List (Option Int)) (t : TxRecord), t ∈ rs →
      t.transaction_id ∈ seen ∨
        ∃ r, r ∈ dedupFrom seen rs ∧ r.transaction_id = t.transaction_id := by
  intro rs
  induction rs with
  | nil => intro seen t ht; simp at ht
  | cons u us ih =>
      intro seen t ht
      rw [dedupFrom]
      by_cases hs : u.transaction_id ∈ seen
      · simp only [if_pos hs]
        rcases List.mem_cons.mp ht with h | h
        · exact Or.inl (h ▸ hs)
        · exact ih seen t h
      · simp only [if_neg hs]
        rcases List.mem_cons.mp ht with h | h
        · exact Or.inr ⟨u, List.mem_cons_self _ _, by rw [h]⟩
        · rcases ih (u.transaction_id :: seen) t h with hin | ⟨r, hr, hk⟩
          · rcases List.mem_cons.mp hin with h2 | h2
            · exact Or.inr ⟨u, List.mem_cons_self _ _, h2.symm⟩
            · exact Or.inl h2
          · exact Or.inr ⟨r, List.mem_cons_of_mem _ hr, hk⟩

/-! Provenance of the records of the transformed and final tables. -/

theorem mem_filled_df {df : List RawRecord} {r : TxRecord} (h : r ∈ filled_df df) :
    ∃ x, x ∈ df ∧ x.transaction_id.isSome = true ∧ x.amount.isSome = true ∧
      r = fillCurrency (castRecord x) := by
  rcases List.mem_map.mp h with ⟨t, ht, hrt⟩
  rcases List.mem_map.mp ht with ⟨x, hx, htx⟩
  rcases List.mem_filter.mp hx with ⟨hxdf, hcond⟩
  simp only [Bool.and_eq_true] at hcond
  exact ⟨x, hxdf, hcond.1, hcond.2, by rw [← hrt, ← htx]⟩

theorem mem_filled_df_of_pass {df : List RawRecord} {x : RawRecord} (hx : x ∈ df)
    (ht : x.transaction_id.isSome = true) (ha : x.amount.isSome = true) :
    fillCurrency (castRecord x) ∈ filled_df df := by
  refine List.mem_map.mpr ⟨castRecord x, ?_, rfl⟩
  refine List.mem_map.mpr ⟨x, ?_, rfl⟩
  exact List.mem_filter.mpr ⟨hx, by rw [ht, ha]; rfl⟩

theorem mem_final_df {df : List RawRecord} {r : TxRecord} (h : r ∈ final_df df) :
    ∃ x, x ∈ df ∧ x.transaction_id.isSome = true ∧ x.amount.isSome = true ∧
      r = fillCurrency (castRecord x) :=
  mem_filled_df (mem_of_mem_dedupFrom _ _ h)

/-- A record whose transaction_id key no other null-filter-surviving record
shares is retained by the deduplication and reaches the final table. -/
theorem retained_of_unique_key {df : List RawRecord} {x : RawRecord} (hx : x ∈ df)
    (ht : x.transaction_id.isSome = true) (ha : x.amount.isSome = true)
    (huniq : ∀ y, y ∈ df → y.transaction_id.isSome = true → y.amount.isSome = true →
      (castRecord y).transaction_id = (castRecord x).transaction_id → y = x) :
    fillCurrency (castRecord x) ∈ final_df df := by
  have hmem := mem_filled_df_of_pass hx ht ha
  rcases key_covered_dedupFrom (filled_df df) [] _ hmem with hin | ⟨r, hr, hk⟩
  · simp at hin
  · rcases mem_filled_df (mem_of_mem_dedupFrom _ _ hr) with ⟨y, hy, hyt, hya, hry⟩
    have hkey : (castRecord y).transaction_id = (castRecord x).transaction_id := by
      have : r.transaction_id = (castRecord y).transaction_id := by rw [hry]; rfl
      rw [← this, hk]; rfl
    have hyx := huniq y hy hyt hya hkey
    rw [← hyx, ← hry]
    exact hr

/-- Bound on a list of records that all carry the null transaction_id key and
pairwise distinct keys. -/
theorem length_le_one_of_allNone {l : List TxRecord}
    (hp : l.Pairwise (fun a b => a.transaction_id ≠ b.transaction_id))
    (hn : ∀ r, r ∈ l → r.transaction_id = none) : l.length ≤ 1 := by
  match l, hp, hn with
  | [], _, _ => simp
  | [a], _, _ => simp
  | a :: b :: t, hp, hn =>
      exfalso
      have h1 := hn a (List.mem_cons_self _ _)
      have h2 := hn b (List.mem_cons_of_mem _ (List.mem_cons_self _ _))
      have h3 := (List.pairwise_cons.mp hp).1 b (List.mem_cons_self _ _)
      rw [h1, h2] at h3
      exact h3 rfl

/-! Concrete inputs used by the counterexamples and witnesses. -/

def c1CexInput : List RawRecord := [⟨some "abc", some "15", none, none⟩]

def c1WitInput : List RawRecord := [⟨some "7", some "15", none, some "USD"⟩]

def c1WitRecord : TxRecord := ⟨some 7, some 15, none, some "USD"⟩

def c3WitInput : List RawRecord := [⟨some "7", some "15", none, none⟩]

def c3WitRecord : TxRecord := ⟨some 7, some 15, none, some "UNKNOWN"⟩

def c4CexRow : RawRecord := ⟨some "1", some "30", some "garbage", none⟩

def c4CexInput : List RawRecord :=
  [⟨some "1", some "20", some "2024-01-01", none⟩, c4CexRow]

def c4WitX : RawRecord := ⟨some "7", some "175", some "garb", none⟩

def c4WitInput : List RawRecord := [c4WitX]

def c5WitEff : Effects := ⟨Except.error "boom", false, true, true⟩

def c6WitEff : Effects := ⟨Except.ok [], false, false, true⟩

def c7CexEff : Effects := ⟨Except.ok [], true, true, true⟩

def c8WitInput : List RawRecord := [⟨some "7", some "15", none, none⟩]

def c8WitEff : Effects := ⟨Except.ok c8WitInput, false, true, true⟩

def c10CexRow : RawRecord := ⟨none, some "abc", none, none⟩

def c10CexInput : List RawRecord := [c10CexRow]

def c10WitX : RawRecord := ⟨some "8", some "abc", none, none⟩

def c10WitInput : List RawRecord := [c10WitX]

/-- C1, counterexample: on the input whose single row has the non-null but
uncastable transaction_id "abc" (and amount "15"), the row passes the
null-filter and the int cast then nulls its transaction_id, so the final
output holds a record with a null transaction_id: the claim that every final
record has non-null transaction_id and amount is false of the code. -/
theorem c1_counterexample :
    ((final_df c1CexInput).all fun r => r.transaction_id.isSome && r.amount.isSome) = false := by
  decide

/-- C1, amended: the null-filter runs before the casts, so the invariant holds
of the final table provided every record that passes the null-filter has a
transaction_id coercible to int and an amount coercible to double; then every
record of the final output has a non-null transaction_id and a non-null
amount. -/
theorem c1_output_nonnull_when_coercible (df : List RawRecord)
    (hc : ∀ x, x ∈ df → x.transaction_id.isSome = true → x.amount.isSome = true →
      (x.transaction_id.bind parseInt).isSome = true ∧
        (x.amount.bind parseDouble).isSome = true)
    (r : TxRecord) (hr : r ∈ final_df df) :
    r.transaction_id.isSome = true ∧ r.amount.isSome = true := by
  rcases mem_final_df hr with ⟨x, hx, ht, ha, hrx⟩
  have h := hc x hx ht ha
  rw [hrx]
  exact h

/-- C1, witness: the amended invariant evaluated on a concrete one-row input
with castable transaction_id "7" and amount "15". -/
theorem c1_witness :
    c1WitRecord.transaction_id.isSome = true ∧ c1WitRecord.amount.isSome = true :=
  c1_output_nonnull_when_coercible c1WitInput (by decide) c1WitRecord (by decide)

/-- C2: the final table's transaction_id keys are pairwise distinct, every
final record is the first record of the transformed table that carries its
key (first-encountered in processing order), and every key of the transformed
table is still represented in the final table — so among records sharing a
transaction_id exactly the first one is retained. -/
theorem c2_dedup_unique_first_kept (df : List RawRecord) :
    (final_df df).Pairwise (fun a b => a.transaction_id ≠ b.transaction_id) ∧
    (∀ r, r ∈ final_df df →
      (filled_df df).find? (fun t => t.transaction_id == r.transaction_id) = some r) ∧
    (∀ t, t ∈ filled_df df →
      ∃ r, r ∈ final_df df ∧ r.transaction_id = t.transaction_id) := by
  refine ⟨pairwise_keys_dedupFrom _ _, ?_, ?_⟩
  · intro r hr
    exact find?_of_mem_dedupFrom _ _ hr
  · intro t ht
    rcases key_covered_dedupFrom (filled_df df) [] t ht with hin | h
    · simp at hin
    · exact h

/-- C3: every final record has a non-null currency; it derives from an input
record, reads the literal "UNKNOWN" exactly when that record's currency was
null (otherwise the original currency), and its other columns are exactly the
cast values, untouched by the default-fill. -/
theorem c3_currency_never_null (df : List RawRecord) (r : TxRecord)
    (hr : r ∈ final_df df) :
    r.currency.isSome = true ∧
    ∃ x, x ∈ df ∧ r.currency = some (x.currency.getD "UNKNOWN") ∧
      (x.currency = none → r.currency = some "UNKNOWN") ∧
      r.transaction_id = (castRecord x).transaction_id ∧
      r.amount = (castRecord x).amount ∧ r.date = (castRecord x).date := by
  rcases mem_final_df hr with ⟨x, hx, ht, ha, hrx⟩
  subst hrx
  refine ⟨rfl, x, hx, rfl, ?_, rfl, rfl, rfl⟩
  intro hnone
  show some (x.currency.getD "UNKNOWN") = some "UNKNOWN"
  rw [hnone]
  rfl

/-- C3, witness: the currency guarantee evaluated on a concrete one-row input
whose currency field is null; the retained record reads "UNKNOWN". -/
theorem c3_witness :
    c3WitRecord.currency.isSome = true ∧
    ∃ x, x ∈ c3WitInput ∧ c3WitRecord.currency = some (x.currency.getD "UNKNOWN") ∧
      (x.currency = none → c3WitRecord.currency = some "UNKNOWN") ∧
      c3WitRecord.transaction_id = (castRecord x).transaction_id ∧
      c3WitRecord.amount = (castRecord x).amount ∧
      c3WitRecord.date = (castRecord x).date :=
  c3_currency_never_null c3WitInput c3WitRecord (by decide)

/-- C4, counterexample: the second input row has transaction_id and amount
present and an unparsable date, yet it shares the key 1 with the first row, so
deduplication keeps only the first row and no record of the final output has
a null date: the unconditional "row is retained with a null date" is false of
the code. -/
theorem c4_counterexample :
    (c4CexRow ∈ c4CexInput ∧ (parseInt "1").isSome = true ∧
      (parseDouble "30").isSome = true ∧ parseDate "garbage" = none) ∧
    (final_df c4CexInput).length = 1 ∧
    ((final_df c4CexInput).all fun r => r.date.isSome) = true := by
  decide

/-- C4, amended: for a record passing the null-filter, an unparsable date
casts to null rather than aborting (the transformation is a total function),
and the record is retained in the final output with a null date provided no
other null-filter-surviving record shares its cast transaction_id key. -/
theorem c4_uncastable_date_null (df : List RawRecord) (x : RawRecord) (s : String)
    (hx : x ∈ df) (ht : x.transaction_id.isSome = true) (ha : x.amount.isSome = true)
    (hd : x.date = some s) (hps : parseDate s = none)
    (huniq : ∀ y, y ∈ df → y.transaction_id.isSome = true → y.amount.isSome = true →
      (castRecord y).transaction_id = (castRecord x).transaction_id → y = x) :
    (castRecord x).date = none ∧ fillCurrency (castRecord x) ∈ final_df df ∧
      (fillCurrency (castRecord x)).date = none := by
  have hdate : (castRecord x).date = none := by
    show x.date.bind parseDate = none
    rw [hd]
    exact hps
  exact ⟨hdate, retained_of_unique_key hx ht ha huniq, hdate⟩

/-- C4, witness: the amended retention property evaluated on a concrete
one-row input whose date "garb" fails the date cast. -/
theorem c4_witness :
    (castRecord c4WitX).date = none ∧
      fillCurrency (castRecord c4WitX) ∈ final_df c4WitInput ∧
      (fillCurrency (castRecord c4WitX)).date = none :=
  c4_uncastable_date_null c4WitInput c4WitX "garb" (by decide) (by decide) (by decide)
    (by decide) (by decide) (by decide)

/-- C5: when the read fails, the run reports the read error, releases the
session exactly once, exits early, and executes neither the transformation nor
the write nor the verification; the output location is left untouched. -/
theorem c5_read_failure_aborts (eff : Effects) (store0 : Option (List TxRecord))
    (e : String) (h : eff.readResult = Except.error e) :
    (runPipeline eff store0).transformExecuted = false ∧
    (runPipeline eff store0).writeAttempted = false ∧
    (runPipeline eff store0).verifyAttempted = false ∧
    (runPipeline eff store0).sessionStops = 1 ∧
    (runPipeline eff store0).exitPath = ExitPath.earlyExit ∧
    (runPipeline eff store0).store = store0 ∧
    (runPipeline eff store0).reportedErrors = ["Error reading CSV: " ++ e] := by
  obtain ⟨rr, er, ws, vs⟩ := eff
  subst h
  simp [runPipeline]

/-- C5, witness: the early-exit behaviour evaluated on a concrete failing
read. -/
theorem c5_witness :
    (runPipeline c5WitEff none).transformExecuted = false ∧
    (runPipeline c5WitEff none).writeAttempted = false ∧
    (runPipeline c5WitEff none).verifyAttempted = false ∧
    (runPipeline c5WitEff none).sessionStops = 1 ∧
    (runPipeline c5WitEff none).exitPath = ExitPath.earlyExit ∧
    (runPipeline c5WitEff none).store = none ∧
    (runPipeline c5WitEff none).reportedErrors = ["Error reading CSV: " ++ "boom"] :=
  c5_read_failure_aborts c5WitEff none "boom" rfl

/-- C6: when the read succeeds and the transformation evaluates, the run
always proceeds through the verification attempt to one session stop and a
normal exit, whatever the write and verification outcomes; a failed write is
reported. -/
theorem c6_write_failure_nonfatal (eff : Effects) (store0 : Option (List TxRecord))
    (df : List RawRecord) (h : eff.readResult = Except.ok df)
    (he : eff.evalRaises = false) :
    (runPipeline eff store0).writeAttempted = true ∧
    (runPipeline eff store0).verifyAttempted = true ∧
    (runPipeline eff store0).sessionStops = 1 ∧
    (runPipeline eff store0).exitPath = ExitPath.normal ∧
    (eff.writeSucceeds = false →
      "Error writing to Delta Lake" ∈ (runPipeline eff store0).reportedErrors) := by
  obtain ⟨rr, er, ws, vs⟩ := eff
  subst h
  subst he
  cases ws <;> cases vs <;> simp [runPipeline]

/-- C6, witness: the write-failure path evaluated on a concrete run whose
write fails; verification is still attempted and the exit is normal. -/
theorem c6_witness :
    (runPipeline c6WitEff none).writeAttempted = true ∧
    (runPipeline c6WitEff none).verifyAttempted = true ∧
    (runPipeline c6WitEff none).sessionStops = 1 ∧
    (runPipeline c6WitEff none).exitPath = ExitPath.normal ∧
    (c6WitEff.writeSucceeds = false →
      "Error writing to Delta Lake" ∈ (runPipeline c6WitEff none).reportedErrors) :=
  c6_write_failure_nonfatal c6WitEff none [] rfl rfl

/-- C7, counterexample: on the path where the read succeeds and the unguarded
transformation section raises, the exception propagates past line 87 and the
session is stopped zero times, not once: the claim that every code path
releases the session exactly once is false of the code. -/
theorem c7_counterexample :
    (runPipeline c7CexEff none).sessionStops = 0 ∧
      (runPipeline c7CexEff none).exitPath = ExitPath.crashed :=
  ⟨rfl, rfl⟩

/-- C7, amended: the session is released exactly once on normal completion and
on the ingestion-failure early exit, but zero times on the path where the
read succeeded and the unguarded transformation section raises. -/
theorem c7_session_stop_count (eff : Effects) (store0 : Option (List TxRecord)) :
    (runPipeline eff store0).sessionStops =
      (match eff.readResult, eff.evalRaises with
        | Except.ok _, true => 0
        | _, _ => 1) := by
  obtain ⟨rr, er, ws, vs⟩ := eff
  cases rr <;> cases er <;> simp [runPipeline]

/-- C8: with a successful read and write, the output location's current
version after a run is exactly the transformed table — independent of
whatever version was there before (overwrite supersedes, never merges) — so
running the pipeline a second time on the same input leaves the store equal
to a single run's output. -/
theorem c8_overwrite_idempotent (eff : Effects) (store0 : Option (List TxRecord))
    (df : List RawRecord) (h : eff.readResult = Except.ok df)
    (he : eff.evalRaises = false) (hw : eff.writeSucceeds = true) :
    (runPipeline eff store0).store = some (final_df df) ∧
    (runPipeline eff ((runPipeline eff store0).store)).store =
      (runPipeline eff store0).store ∧
    (∀ store1, (runPipeline eff store1).store = (runPipeline eff store0).store) := by
  obtain ⟨rr, er, ws, vs⟩ := eff
  subst h
  subst he
  subst hw
  simp [runPipeline]

/-- C8, witness: idempotence of the overwrite evaluated on a concrete run over
a one-row input. -/
theorem c8_witness :
    (runPipeline c8WitEff none).store = some (final_df c8WitInput) ∧
    (runPipeline c8WitEff ((runPipeline c8WitEff none).store)).store =
      (runPipeline c8WitEff none).store ∧
    (∀ store1, (runPipeline c8WitEff store1).store = (runPipeline c8WitEff none).store) :=
  c8_overwrite_idempotent c8WitEff none c8WitInput rfl rfl rfl

/-- C9: deduplication treats the null transaction_id as one key group, so the
final output holds at most one record whose transaction_id is null. -/
theorem c9_at_most_one_null_key (df : List RawRecord) :
    ((final_df df).filter (fun r => r.transaction_id.isNone)).length ≤ 1 := by
  refine length_le_one_of_allNone (List.Pairwise.filter _ ?_) ?_
  · exact pairwise_keys_dedupFrom _ _
  · intro r hr
    have h := (List.mem_filter.mp hr).2
    exact Option.isNone_iff_eq_none.mp (by simpa using h)

/-- C10, counterexample: the single input row carries the non-null,
non-coercible amount "abc" but a null transaction_id, so it is removed by the
null-filter and the final output is empty: the claim that every record with a
present uncoercible amount passes the filter and reaches the output is false
of the code. -/
theorem c10_counterexample :
    (c10CexRow.amount.isSome = true ∧ parseDouble "abc" = none) ∧
    cleaned_df c10CexInput = [] ∧ final_df c10CexInput = [] := by
  decide

/-- C10, amended: a record whose amount is present but not coercible to double
passes the null-filter provided its transaction_id is also present, and it
appears in the final output with a null amount provided no other
null-filter-surviving record shares its cast transaction_id key. -/
theorem c10_uncastable_amount_retained (df : List RawRecord) (x : RawRecord)
    (s : String) (hx : x ∈ df) (ht : x.transaction_id.isSome = true)
    (ha : x.amount = some s) (hps : parseDouble s = none)
    (huniq : ∀ y, y ∈ df → y.transaction_id.isSome = true → y.amount.isSome = true →
      (castRecord y).transaction_id = (castRecord x).transaction_id → y = x) :
    x ∈ cleaned_df df ∧ fillCurrency (castRecord x) ∈ final_df df ∧
      (fillCurrency (castRecord x)).amount = none := by
  have ha' : x.amount.isSome = true := by rw [ha]; rfl
  have hnull : (castRecord x).amount = none := by
    show x.amount.bind parseDouble = none
    rw [ha]
    exact hps
  refine ⟨List.mem_filter.mpr ⟨hx, by simp [ht, ha']⟩,
    retained_of_unique_key hx ht ha' huniq, hnull⟩

/-- C10, witness: the amended retention property evaluated on a concrete
one-row input whose amount "abc" fails the double cast. -/
theorem c10_witness :
    c10WitX ∈ cleaned_df c10WitInput ∧
      fillCurrency (castRecord c10WitX) ∈ final_df c10WitInput ∧
      (fillCurrency (castRecord c10WitX)).amount = none :=
  c10_uncastable_amount_retained c10WitInput c10WitX "abc" (by decide) (by decide)
    (by decide) (by decide) (by decide)

end FinancialDataProcessor
